import Mathlib

/-!
Verification of the aria-snapshot expectation engine of this repository.

The development embeds, on one side, the matcher wrapper of
src/packages/playwright/src/matchers/toMatchAriaSnapshot.ts (its
preprocessYaml / unshift helpers and the result-building control flow),
translated directly from the TypeScript source; and, on the other side,
the expectation-language parser, attribute validator, tree matcher and
regexifier, which are exercised by the repository only through their
tests and are modelled from the specification (each such definition says
so in its doc comment).
-/

namespace AriaSnapshot

/-! ## Data model of the tree matcher.

Modelled from the spec: §3 "DATA MODEL" and §4.3 "Tree Matcher". The
concrete parser/matcher implementation is not part of the repository
sources (only its tests and its caller are), so the data model follows
the spec's words: a Pattern Node has a role, an optional accessible-name
matcher (literal or regular expression — a regular expression is
represented by its full-string test function), typed attributes, an
optional /url matcher, an optional declared containment mode and ordered
children; per the §3 invariant exactly one of name/text is meaningful
per node, so the single name matcher also stands for the leaf text
matcher. A Snapshot Node carries concrete resolved values. -/

/-- Typed attribute values: booleans, the tristate "mixed", integers. -/
inductive AttrVal where
  | bool (b : Bool)
  | mixed
  | int (n : Int)
deriving DecidableEq, Repr

/-- A literal-or-regex value matcher; a regex is represented by its
full-string test. -/
inductive ValuePattern where
  | lit (s : String)
  | re (test : String → Bool)

/-- Containment modes for children matching. -/
inductive Mode where
  | contain
  | equal
  | deepEqual
deriving DecidableEq, Repr

/-- Concrete snapshot node: role, accessible name, resolved attributes,
optional url, ordered children. -/
inductive SnapshotNode where
  | mk (role : String) (name : String) (attrs : List (String × AttrVal))
       (url : Option String) (children : List SnapshotNode)

/-- Pattern node: role, optional name/text matcher, declared attributes,
optional url matcher, optionally declared containment mode (the parsed
form of a leading pseudo-child "/children: mode"), ordered children. -/
inductive PatternNode where
  | mk (role : String) (name : Option ValuePattern)
       (attrs : List (String × AttrVal)) (url : Option ValuePattern)
       (mode : Option Mode) (children : List PatternNode)

namespace SnapshotNode

def role : SnapshotNode → String | .mk r _ _ _ _ => r
def name : SnapshotNode → String | .mk _ n _ _ _ => n
def attrs : SnapshotNode → List (String × AttrVal) | .mk _ _ a _ _ => a
def url : SnapshotNode → Option String | .mk _ _ _ u _ => u
def children : SnapshotNode → List SnapshotNode | .mk _ _ _ _ c => c

end SnapshotNode

namespace PatternNode

def role : PatternNode → String | .mk r _ _ _ _ _ => r
def name : PatternNode → Option ValuePattern | .mk _ n _ _ _ _ => n
def attrs : PatternNode → List (String × AttrVal) | .mk _ _ a _ _ _ => a
def url : PatternNode → Option ValuePattern | .mk _ _ _ u _ _ => u
def mode : PatternNode → Option Mode | .mk _ _ _ _ m _ => m
def children : PatternNode → List PatternNode | .mk _ _ _ _ _ c => c

end PatternNode

/-- Value Matcher. Modelled from the spec: "literal → exact string
equality, regex → full-string test" (§4.3). -/
def valueOk : ValuePattern → String → Bool
  | .lit s, v => s == v
  | .re t, v => t v

/-- Optional name/text matcher: absent means "any". -/
def nameOk : Option ValuePattern → String → Bool
  | none, _ => true
  | some vp, v => valueOk vp v

/-- Look up a resolved attribute of the snapshot by key. -/
def lookupAttr (key : String) : List (String × AttrVal) → Option AttrVal
  | [] => none
  | (k, v) :: rest => if k == key then some v else lookupAttr key rest

/-- One declared pattern attribute against the snapshot's resolved
attributes. Modelled from the spec: "every declared attribute must
satisfy typed equality … a pattern attribute absent from the snapshot
fails" (§4.3). -/
def attrOk (sattrs : List (String × AttrVal)) (kv : String × AttrVal) : Bool :=
  match lookupAttr kv.1 sattrs with
  | some v => v == kv.2
  | none => false

/-- Url matcher: matched the same way as name when declared. -/
def urlOk : Option ValuePattern → Option String → Bool
  | none, _ => true
  | some vp, some u => valueOk vp u
  | some _, none => false

/-- The containment mode a node's children inherit from the node's
effective mode. Modelled from the spec: descendants of equal revert to
contain; deep-equal is inherited (§4.3). -/
def childInherit : Mode → Mode
  | .deepEqual => .deepEqual
  | _ => .contain

mutual

/-- Tree Matcher node predicate. Modelled from the spec (§4.3): role
exactly equal, name/text through the Value Matcher, declared attributes
by typed equality, /url like name, children by the effective containment
mode (own declared mode if any, else the inherited one). -/
def nodeMatches (inh : Mode) (p : PatternNode) (s : SnapshotNode) : Bool :=
  match p, s with
  | .mk role name attrs url mode pchildren, .mk srole sname sattrs surl schildren =>
    role == srole && nameOk name sname && attrs.all (attrOk sattrs) &&
    urlOk url surl && childrenMatch (mode.getD inh) pchildren schildren
termination_by sizeOf s
decreasing_by all_goals simp_wf

/-- Children matching under an effective containment mode. Modelled from
the spec (§4.3): contain scans snapshot children left-to-right with the
pattern children advancing in lockstep (earliest-possible assignment, no
backtracking); equal and deep-equal require pairwise matching of lists
of equal length; children of matched children inherit via childInherit. -/
def childrenMatch (eff : Mode) (ps : List PatternNode) (ss : List SnapshotNode) : Bool :=
  match eff, ps, ss with
  | _, [], [] => true
  | .contain, [], _ => true
  | .contain, _ :: _, [] => false
  | .contain, p :: ps', s :: ss' =>
    if nodeMatches .contain p s then childrenMatch .contain ps' ss'
    else childrenMatch .contain (p :: ps') ss'
  | .equal, p :: ps', s :: ss' =>
    nodeMatches .contain p s && childrenMatch .equal ps' ss'
  | .deepEqual, p :: ps', s :: ss' =>
    nodeMatches .deepEqual p s && childrenMatch .deepEqual ps' ss'
  | _, _, _ => false
termination_by sizeOf ss
decreasing_by all_goals (simp_wf <;> omega)

end

/-- The element-level match predicate used when scanning children in
contain mode. -/
def containM (p : PatternNode) (s : SnapshotNode) : Prop :=
  nodeMatches .contain p s = true

instance (p : PatternNode) (s : SnapshotNode) : Decidable (containM p s) := by
  unfold containM; infer_instance

theorem childrenMatch_contain_nil (ss : List SnapshotNode) :
    childrenMatch .contain [] ss = true := by
  cases ss <;> simp [childrenMatch]

/-- Dropping the first pattern child, and prepending a snapshot child,
both preserve success of the contain-mode scan. -/
theorem contain_drop_and_weaken (ss : List SnapshotNode) :
    (∀ p ps, childrenMatch .contain (p :: ps) ss = true →
      childrenMatch .contain ps ss = true) ∧
    (∀ ps s, childrenMatch .contain ps ss = true →
      childrenMatch .contain ps (s :: ss) = true) := by
  induction ss with
  | nil =>
    constructor
    · intro p ps h; simp [childrenMatch] at h
    · intro ps s h
      cases ps with
      | nil => exact childrenMatch_contain_nil _
      | cons p ps' => simp [childrenMatch] at h
  | cons s ss' ih =>
    have first : ∀ p ps, childrenMatch .contain (p :: ps) (s :: ss') = true →
        childrenMatch .contain ps (s :: ss') = true := by
      intro p ps h
      rw [childrenMatch] at h
      by_cases hm : nodeMatches .contain p s = true
      · simp only [hm, if_true] at h
        exact ih.2 ps s h
      · simp only [hm, if_false] at h
        exact ih.2 ps s (ih.1 p ps h)
    refine ⟨first, ?_⟩
    intro ps s' h
    cases ps with
    | nil => exact childrenMatch_contain_nil _
    | cons p ps' =>
      rw [childrenMatch]
      by_cases hm : nodeMatches .contain p s' = true
      · simp only [hm, if_true]
        exact first p ps' h
      · simp only [hm, if_false]
        exact h

/-- The contain-mode scan succeeds exactly when the pattern children
appear, in order, as a (not necessarily contiguous) subsequence of the
snapshot children, each matching its assigned snapshot child. -/
theorem childrenMatch_contain_iff (ps : List PatternNode) (ss : List SnapshotNode) :
    childrenMatch .contain ps ss = true ↔ List.SublistForall₂ containM ps ss := by
  induction ss generalizing ps with
  | nil =>
    cases ps with
    | nil => simp [childrenMatch]; exact .nil
    | cons p ps' =>
      simp only [childrenMatch]
      constructor
      · intro h; cases h
      · intro h; cases h
  | cons s ss' ih =>
    cases ps with
    | nil =>
      simp only [childrenMatch]
      constructor
      · intro _; exact .nil
      · intro _; trivial
    | cons p ps' =>
      rw [childrenMatch]
      by_cases hm : nodeMatches .contain p s = true
      · simp only [hm, if_true]
        constructor
        · intro h; exact .cons hm ((ih ps').mp h)
        · intro h
          cases h with
          | cons hr hrest => exact (ih ps').mpr hrest
          | cons_right hrest =>
            exact (contain_drop_and_weaken ss').1 p ps' ((ih (p :: ps')).mpr hrest)
      · simp only [hm, if_false]
        constructor
        · intro h; exact .cons_right ((ih (p :: ps')).mp h)
        · intro h
          cases h with
          | cons hr hrest => exact absurd hr hm
          | cons_right hrest => exact (ih (p :: ps')).mpr hrest

mutual

/-- Every containment mode declared anywhere in the pattern tree is
contain (or left undeclared, which defaults to contain). -/
def allContainP : PatternNode → Bool
  | .mk _ _ _ _ m cs => (m == none || m == some .contain) && allContainL cs
termination_by p => sizeOf p

def allContainL : List PatternNode → Bool
  | [] => true
  | p :: ps => allContainP p && allContainL ps
termination_by ps => sizeOf ps

end

theorem allContainL_mem {ps : List PatternNode} (h : allContainL ps = true) :
    ∀ p ∈ ps, allContainP p = true := by
  induction ps with
  | nil => intro p hp; cases hp
  | cons q qs ih =>
    rw [allContainL, Bool.and_eq_true] at h
    intro p hp
    cases hp with
    | head => exact h.1
    | tail _ hp' => exact ih h.2 p hp'

/-- One extra child inserted somewhere in a snapshot tree: either
directly into this node's child list, or inside one of the children. -/
inductive AddChild : SnapshotNode → SnapshotNode → Prop where
  | here (role name : String) (attrs : List (String × AttrVal)) (url : Option String)
      (l₁ l₂ : List SnapshotNode) (c : SnapshotNode) :
      AddChild (.mk role name attrs url (l₁ ++ l₂)) (.mk role name attrs url (l₁ ++ c :: l₂))
  | deep (role name : String) (attrs : List (String × AttrVal)) (url : Option String)
      (l₁ l₂ : List SnapshotNode) {c c' : SnapshotNode} :
      AddChild c c' →
      AddChild (.mk role name attrs url (l₁ ++ c :: l₂)) (.mk role name attrs url (l₁ ++ c' :: l₂))

theorem sublistForall₂_transport {M : PatternNode → SnapshotNode → Prop}
    {R : SnapshotNode → SnapshotNode → Prop}
    (hMR : ∀ p s t, M p s → R s t → M p t) :
    ∀ {ps : List PatternNode} {ss ts : List SnapshotNode},
      List.SublistForall₂ M ps ss → List.Forall₂ R ss ts → List.SublistForall₂ M ps ts := by
  intro ps ss ts hsf hf
  induction hsf generalizing ts with
  | nil => exact .nil
  | cons hm _ ih =>
    cases hf with
    | cons hr hf' => exact .cons (hMR _ _ _ hm hr) (ih hf')
  | cons_right _ ih =>
    cases hf with
    | cons hr hf' => exact .cons_right (ih hf')

theorem sublistForall₂_widen {M : PatternNode → SnapshotNode → Prop}
    {ps : List PatternNode} {ss ts : List SnapshotNode}
    (h : List.SublistForall₂ M ps ss) (hsub : ss.Sublist ts) :
    List.SublistForall₂ M ps ts := by
  rcases List.sublistForall₂_iff.mp h with ⟨l, hf, hl⟩
  exact List.sublistForall₂_iff.mpr ⟨l, hf, hl.trans hsub⟩

theorem sublistForall₂_and_left {M : PatternNode → SnapshotNode → Prop}
    {A : PatternNode → Prop} :
    ∀ {ps : List PatternNode} {ss : List SnapshotNode},
      List.SublistForall₂ M ps ss → (∀ p ∈ ps, A p) →
      List.SublistForall₂ (fun p s => A p ∧ M p s) ps ss := by
  intro ps ss hsf hA
  induction hsf with
  | nil => exact .nil
  | cons hm _ ih =>
    exact .cons ⟨hA _ (List.mem_cons_self _ _), hm⟩ (ih fun p hp => hA p (List.mem_cons_of_mem _ hp))
  | cons_right _ ih => exact .cons_right (ih hA)

theorem sublistForall₂_imp {M N : PatternNode → SnapshotNode → Prop}
    (h : ∀ p s, M p s → N p s) :
    ∀ {ps : List PatternNode} {ss : List SnapshotNode},
      List.SublistForall₂ M ps ss → List.SublistForall₂ N ps ss := by
  intro ps ss hsf
  induction hsf with
  | nil => exact .nil
  | cons hm _ ih => exact .cons (h _ _ hm) ih
  | cons_right _ ih => exact .cons_right ih

theorem effMode_contain {m : Option Mode} (h : (m == none || m == some .contain) = true) :
    m.getD .contain = .contain := by
  cases m with
  | none => rfl
  | some mm =>
    simp only [Bool.or_eq_true, beq_iff_eq] at h
    rcases h with h | h
    · cases h
    · rw [h]; rfl

/-- Adding an extra child anywhere in the snapshot never turns a passing
contain-mode match into a failing one. -/
theorem nodeMatches_contain_monotone :
    ∀ {s s' : SnapshotNode}, AddChild s s' → ∀ p : PatternNode,
      allContainP p = true → nodeMatches .contain p s = true →
      nodeMatches .contain p s' = true := by
  intro s s' h
  induction h with
  | here role name attrs url l₁ l₂ c =>
    intro p hall hm
    cases p with
    | mk prole pname pattrs purl pmode pchildren =>
      rw [allContainP, Bool.and_eq_true] at hall
      rw [nodeMatches] at hm ⊢
      simp only [Bool.and_eq_true] at hm
      obtain ⟨⟨⟨⟨h1, h2⟩, h3⟩, h4⟩, h5⟩ := hm
      simp only [Bool.and_eq_true]
      refine ⟨⟨⟨⟨h1, h2⟩, h3⟩, h4⟩, ?_⟩
      rw [effMode_contain hall.1] at h5 ⊢
      rw [childrenMatch_contain_iff] at h5 ⊢
      exact sublistForall₂_widen h5
        (List.Sublist.append_left (List.sublist_cons_self c l₂) l₁)
  | deep role name attrs url l₁ l₂ _ ih =>
    intro p hall hm
    cases p with
    | mk prole pname pattrs purl pmode pchildren =>
      rw [allContainP, Bool.and_eq_true] at hall
      rw [nodeMatches] at hm ⊢
      simp only [Bool.and_eq_true] at hm
      obtain ⟨⟨⟨⟨h1, h2⟩, h3⟩, h4⟩, h5⟩ := hm
      simp only [Bool.and_eq_true]
      refine ⟨⟨⟨⟨h1, h2⟩, h3⟩, h4⟩, ?_⟩
      rw [effMode_contain hall.1] at h5 ⊢
      rw [childrenMatch_contain_iff] at h5 ⊢
      have hRrefl : ∀ x : SnapshotNode, (fun u v : SnapshotNode =>
          ∀ q, allContainP q = true → nodeMatches .contain q u = true →
            nodeMatches .contain q v = true) x x := fun _ _ _ hq => hq
      have hF₁ : List.Forall₂ (fun u v : SnapshotNode =>
          ∀ q, allContainP q = true → nodeMatches .contain q u = true →
            nodeMatches .contain q v = true) l₁ l₁ :=
        List.forall₂_same.mpr fun x _ => hRrefl x
      have hF₂ : List.Forall₂ (fun u v : SnapshotNode =>
          ∀ q, allContainP q = true → nodeMatches .contain q u = true →
            nodeMatches .contain q v = true) l₂ l₂ :=
        List.forall₂_same.mpr fun x _ => hRrefl x
      have hF : List.Forall₂ (fun u v : SnapshotNode =>
          ∀ q, allContainP q = true → nodeMatches .contain q u = true →
            nodeMatches .contain q v = true) (l₁ ++ _ :: l₂) (l₁ ++ _ :: l₂) :=
        List.rel_append hF₁ (List.Forall₂.cons (fun q hq hmq => ih q hq hmq) hF₂)
      have h5' := sublistForall₂_and_left h5 (allContainL_mem hall.2)
      have h6 := sublistForall₂_transport
        (M := fun p s => allContainP p = true ∧ containM p s)
        (fun p s t hps hst => ⟨hps.1, hst p hps.1 hps.2⟩) h5' hF
      exact sublistForall₂_imp (fun _ _ hps => hps.2) h6

/-- Equal (and deep-equal) children matching is pairwise matching of
lists of equal length. -/
theorem childrenMatch_equal_iff (ps : List PatternNode) (ss : List SnapshotNode) :
    childrenMatch .equal ps ss = true ↔ List.Forall₂ containM ps ss := by
  induction ps generalizing ss with
  | nil =>
    cases ss with
    | nil => simp [childrenMatch]
    | cons s ss' => simp [childrenMatch, List.forall₂_nil_left_iff]
  | cons p ps' ih =>
    cases ss with
    | nil => simp [childrenMatch, List.forall₂_nil_right_iff]
    | cons s ss' =>
      rw [childrenMatch, Bool.and_eq_true]
      constructor
      · rintro ⟨h1, h2⟩
        exact .cons h1 ((ih ss').mp h2)
      · intro h
        cases h with
        | cons hr hrest => exact ⟨hr, (ih ss').mpr hrest⟩

/-- Replace a pattern node's declared containment mode. -/
def withMode : PatternNode → Option Mode → PatternNode
  | .mk r n a u _ c, m => .mk r n a u m c

/-! Concrete scenario trees used by the containment-mode claims,
mirroring the repository's tests. -/

/-- Pattern leaf: a listitem with a literal text expectation. -/
def liP (s : String) : PatternNode := .mk "listitem" (some (.lit s)) [] none none []

/-- Snapshot leaf: a listitem with concrete text. -/
def liS (s : String) : SnapshotNode := .mk "listitem" s [] none []

/-- Expectation: list with /children: equal and items One, Two, Three. -/
def listPatEqual : PatternNode :=
  .mk "list" none [] none (some .equal) [liP "One", liP "Two", liP "Three"]

/-- Actual children One, Two, Three. -/
def snapOTT : SnapshotNode := .mk "list" "" [] none [liS "One", liS "Two", liS "Three"]

/-- Actual children One, Three (Two removed). -/
def snapOT : SnapshotNode := .mk "list" "" [] none [liS "One", liS "Three"]

/-- Nested snapshot: list > listitem > list > [1.1, 1.2]. -/
def snapNested : SnapshotNode :=
  .mk "list" "" [] none
    [.mk "listitem" "" [] none
      [.mk "list" "" [] none [liS "1.1", liS "1.2"]]]

/-- Expectation with /children: deep-equal at the outer list and no
directive below: the inner list only expects 1.1. -/
def deepPatNoOverride : PatternNode :=
  .mk "list" none [] none (some .deepEqual)
    [.mk "listitem" none [] none none
      [.mk "list" none [] none none [liP "1.1"]]]

/-- Same expectation, but the inner list explicitly restores
/children: contain. -/
def deepPatContainOverride : PatternNode :=
  .mk "list" none [] none (some .deepEqual)
    [.mk "listitem" none [] none none
      [.mk "list" none [] none (some .contain) [liP "1.1"]]]

/-- A pattern used to witness the monotonicity statement. -/
def c3Pat : PatternNode := .mk "list" none [] none none [liP "One"]

/-- A snapshot matching c3Pat. -/
def c3Snap : SnapshotNode := .mk "list" "" [] none [liS "One"]

/-- The same snapshot with an extra child inserted in front. -/
def c3SnapBig : SnapshotNode := .mk "list" "" [] none [liS "Zero", liS "One"]

/-- C3: under contain mode, a node's pattern children match if and only
if they appear, in order, as a (not necessarily contiguous) subsequence
of the snapshot node's children, extra snapshot children being ignored;
consequently contain-mode matching is monotone: adding an extra child
anywhere in the snapshot never turns a passing match into a failing one
(for patterns whose declared modes are all contain). -/
theorem c3_contain_subsequence_and_monotone :
    (∀ (ps : List PatternNode) (ss : List SnapshotNode),
        childrenMatch .contain ps ss = true ↔ List.SublistForall₂ containM ps ss)
    ∧ (∀ (s s' : SnapshotNode) (p : PatternNode), AddChild s s' →
        allContainP p = true → nodeMatches .contain p s = true →
        nodeMatches .contain p s' = true) :=
  ⟨childrenMatch_contain_iff,
   fun _ _ p h hall hm => nodeMatches_contain_monotone h p hall hm⟩

/-- Witness for C3: the concrete pattern (list containing listitem One)
matches the snapshot obtained by inserting an extra listitem Zero in
front of One. -/
theorem c3_witness : nodeMatches .contain c3Pat c3SnapBig = true :=
  c3_contain_subsequence_and_monotone.2 c3Snap c3SnapBig c3Pat
    (AddChild.here "list" "" [] none [] [liS "One"] (liS "Zero"))
    (by simp [allContainP, allContainL, c3Pat, liP])
    (by simp [nodeMatches, childrenMatch, nameOk, valueOk, urlOk, c3Pat, c3Snap, liP, liS])

/-- C4: under equal (and deep-equal) mode the snapshot's child list must
have exactly the pattern's length and match pairwise with no subsequence
skipping, so removing or adding any snapshot child at that level turns a
passing match into a failing one; concretely, expecting listitems One,
Two, Three with /children: equal passes against actual children
One, Two, Three and fails when Two is removed. -/
theorem c4_equal_mode_exact :
    (∀ (ps : List PatternNode) (ss : List SnapshotNode),
        childrenMatch .equal ps ss = true ↔ List.Forall₂ containM ps ss)
    ∧ (∀ (ps : List PatternNode) (ss ss' : List SnapshotNode),
        childrenMatch .equal ps ss = true → ss'.length ≠ ss.length →
        childrenMatch .equal ps ss' = false)
    ∧ nodeMatches .contain listPatEqual snapOTT = true
    ∧ nodeMatches .contain listPatEqual snapOT = false := by
  have hlen : ∀ (ps : List PatternNode) (ss ss' : List SnapshotNode),
      childrenMatch .equal ps ss = true → ss'.length ≠ ss.length →
      childrenMatch .equal ps ss' = false := by
    intro ps ss ss' h hne
    cases h' : childrenMatch .equal ps ss' with
    | false => rfl
    | true =>
      exact absurd
        (((childrenMatch_equal_iff ps ss').mp h').length_eq.symm.trans
          ((childrenMatch_equal_iff ps ss).mp h).length_eq)
        hne
  refine ⟨childrenMatch_equal_iff, hlen, ?_, ?_⟩
  · simp [nodeMatches, childrenMatch, nameOk, valueOk, urlOk, listPatEqual, snapOTT, liP, liS]
  · simp [nodeMatches, childrenMatch, nameOk, valueOk, urlOk, listPatEqual, snapOT, liP, liS]

/-- Witness for C4: a one-item pattern matches the one-item snapshot
under equal mode, and removing that child (leaving an empty child list
of different length) makes the equal-mode match fail. -/
theorem c4_witness : childrenMatch .equal [liP "One"] ([] : List SnapshotNode) = false :=
  c4_equal_mode_exact.2.1 [liP "One"] [liS "One"] []
    (by simp [childrenMatch, nodeMatches, nameOk, valueOk, urlOk, liP, liS])
    (by decide)

/-- C5: a node that declares its own /children directive is matched the
same way whatever mode it inherits (local override); a node that does
not declare one, matched under inherited deep-equal, behaves exactly as
if it had declared deep-equal itself (so the mode is inherited by every
descendant level that does not declare its own directive); concretely,
deep-equal declared at the outer list makes the undeclared inner list
require exact child-list equality (the match fails when only 1.1 of
1.1, 1.2 is expected), while explicitly declaring /children: contain on
the inner list restores the looser matching for that subtree and the
match passes. -/
theorem c5_deep_equal_inheritance :
    (∀ (p : PatternNode) (s : SnapshotNode) (m : Mode) (inh inh' : Mode),
        p.mode = some m → nodeMatches inh p s = nodeMatches inh' p s)
    ∧ (∀ (p : PatternNode) (s : SnapshotNode),
        p.mode = none →
        nodeMatches .deepEqual p s = nodeMatches .contain (withMode p (some .deepEqual)) s)
    ∧ nodeMatches .contain deepPatNoOverride snapNested = false
    ∧ nodeMatches .contain deepPatContainOverride snapNested = true := by
  refine ⟨?_, ?_, ?_, ?_⟩
  · intro p s m inh inh' h
    cases p with
    | mk prole pname pattrs purl pmode pchildren =>
      simp only [PatternNode.mode] at h
      subst h
      cases s with
      | mk srole sname sattrs surl schildren =>
        rw [nodeMatches, nodeMatches]
        simp only [Option.getD_some]
  · intro p s h
    cases p with
    | mk prole pname pattrs purl pmode pchildren =>
      simp only [PatternNode.mode] at h
      subst h
      cases s with
      | mk srole sname sattrs surl schildren =>
        simp only [withMode]
        rw [nodeMatches, nodeMatches]
        simp only [Option.getD_some, Option.getD_none]
  · simp [nodeMatches, childrenMatch, nameOk, valueOk, urlOk, deepPatNoOverride, snapNested,
      liP, liS]
  · simp [nodeMatches, childrenMatch, nameOk, valueOk, urlOk, deepPatContainOverride, snapNested,
      liP, liS]

/-- Witness for C5: the inner list node of the contain-override pattern
declares /children: contain, so its match result does not depend on the
inherited mode. -/
theorem c5_witness :
    nodeMatches .deepEqual (.mk "list" none [] none (some .contain) [liP "1.1"])
      (.mk "list" "" [] none [liS "1.1", liS "1.2"])
    = nodeMatches .contain (.mk "list" none [] none (some .contain) [liP "1.1"])
      (.mk "list" "" [] none [liS "1.1", liS "1.2"]) :=
  c5_deep_equal_inheritance.1 (.mk "list" none [] none (some .contain) [liP "1.1"])
    (.mk "list" "" [] none [liS "1.1", liS "1.2"]) .contain .deepEqual .contain rfl

/-! ## Attribute validator and expectation parser.

Modelled from the spec: §4.1 "Tokenizer/Parser", §4.2 "Attribute
Validator" and §6 "Output: structured syntax/attribute errors". The
parser implementation is not part of the repository sources (only its
tests are), so the grammar and error reporting below follow the spec's
words: a body line is role, optional quoted-string or /regex/ name,
optional bracketed attribute list, optional trailing colon; errors carry
a 1-based column into the original unindented text and abort the parse
immediately. -/

/-- A structured parse error for one body line: message and 1-based
column. -/
structure ParseErr where
  message : String
  col : Nat
deriving DecidableEq, Repr

/-- A document-level parse error: message, 1-based line, 1-based column. -/
structure DocErr where
  message : String
  line : Nat
  col : Nat
deriving DecidableEq, Repr

/-- Integer literal shape. Modelled from the spec: "Integer parsing
accepts digit sequences with an optional leading '-'; an empty value
after trimming is an error" (§4.2). -/
def isIntLit : List Char → Bool
  | '-' :: rest => !rest.isEmpty && rest.all Char.isDigit
  | cs => !cs.isEmpty && cs.all Char.isDigit

def digitsToNat (cs : List Char) : Nat :=
  cs.foldl (fun acc c => acc * 10 + (c.toNat - '0'.toNat)) 0

def strToInt (s : String) : Int :=
  match s.data with
  | '-' :: rest => -(digitsToNat rest : Int)
  | cs => (digitsToNat cs : Int)

/-- Attribute Validator. Modelled from the spec's table (§4.2): checked
and pressed accept the case-sensitive booleans or the literal mixed;
disabled, expanded and selected accept exactly true/false; level accepts
integer literals; each domain has its fixed invalid-value message. -/
def validateAttr (key raw : String) : Except String AttrVal :=
  if key = "checked" ∨ key = "pressed" then
    if raw = "true" then .ok (.bool true)
    else if raw = "false" then .ok (.bool false)
    else if raw = "mixed" then .ok .mixed
    else .error "must be a boolean or \"mixed\""
  else if key = "disabled" ∨ key = "expanded" ∨ key = "selected" then
    if raw = "true" then .ok (.bool true)
    else if raw = "false" then .ok (.bool false)
    else .error "must be a boolean"
  else if key = "level" then
    if isIntLit raw.data then .ok (.int (strToInt raw))
    else .error "must be a number"
  else .error "unsupported attribute"

def isWordChar (c : Char) : Bool := c.isAlphanum || c == '_'

def isSpaceChar (c : Char) : Bool := c == ' ' || c == '\t'

/-- The closed set of attribute keys (§4.2). -/
def supportedAttrKeys : List String :=
  ["checked", "disabled", "expanded", "level", "pressed", "selected"]

/-- Scan a double-quoted string literal (after the opening quote) with
backslash escapes; an unterminated quote fails pointing at end-of-line.
Returns the index after the closing quote and the remaining characters. -/
def parseQuoted : List Char → Nat → Except ParseErr (Nat × List Char)
  | [], i => .error ⟨"Unterminated string", i + 1⟩
  | ['\\'], i => .error ⟨"Unterminated string", i + 2⟩
  | '\\' :: _ :: rest, i => parseQuoted rest (i + 2)
  | '"' :: rest, i => .ok (i + 1, rest)
  | _ :: rest, i => parseQuoted rest (i + 1)

/-- Scan a /.../ regex literal (after the opening slash); character
classes may contain escaped characters and an unescaped slash inside a
class does not terminate the literal; an unterminated regex fails
pointing at end-of-line. -/
def parseRegexLit : Bool → List Char → Nat → Except ParseErr (Nat × List Char)
  | _, [], i => .error ⟨"Unterminated regex", i + 1⟩
  | _, ['\\'], i => .error ⟨"Unterminated regex", i + 2⟩
  | inClass, '\\' :: _ :: rest, i => parseRegexLit inClass rest (i + 2)
  | true, c :: rest, i => parseRegexLit (c != ']') rest (i + 1)
  | false, c :: rest, i =>
    if c == '/' then .ok (i + 1, rest)
    else parseRegexLit (c == '[') rest (i + 1)

def trimRightChars (cs : List Char) : List Char :=
  (cs.reverse.dropWhile isSpaceChar).reverse

/-- Scan a bracketed attribute list (after the opening bracket):
key, key=value, comma separated, insignificant whitespace around = and
after commas; a bare key is shorthand for key=true; an unknown key fails
pointing at the key token; an invalid value fails pointing at the value. -/
def parseAttrBody (fuel : Nat) (cs : List Char) (i : Nat)
    (acc : List (String × AttrVal)) :
    Except ParseErr (List (String × AttrVal) × Nat × List Char) :=
  match fuel with
  | 0 => .error ⟨"Unexpected input", i + 1⟩
  | fuel + 1 =>
    let sp := cs.takeWhile isSpaceChar
    let rest := cs.dropWhile isSpaceChar
    let ik := i + sp.length
    let key := rest.takeWhile isWordChar
    let rest2 := rest.dropWhile isWordChar
    if key.isEmpty then .error ⟨"Unexpected input", ik + 1⟩
    else
      let keyS := String.mk key
      if !(supportedAttrKeys.contains keyS) then
        .error ⟨"Unsupported attribute [" ++ keyS ++ "]", ik + 1⟩
      else
        let i2 := ik + key.length
        let sp2 := rest2.takeWhile isSpaceChar
        let rest3 := rest2.dropWhile isSpaceChar
        let i3 := i2 + sp2.length
        match rest3 with
        | '=' :: rest4 =>
          let sp3 := rest4.takeWhile isSpaceChar
          let rest5 := rest4.dropWhile isSpaceChar
          let vstart := i3 + 1 + sp3.length
          let vraw := rest5.takeWhile (fun c => c != ',' && c != ']')
          let rest6 := rest5.dropWhile (fun c => c != ',' && c != ']')
          match validateAttr keyS (String.mk (trimRightChars vraw)) with
          | .error msg =>
            .error ⟨"Value of \"" ++ keyS ++ "\" attribute " ++ msg, vstart + 1⟩
          | .ok v =>
            let i4 := vstart + vraw.length
            match rest6 with
            | ',' :: rest7 => parseAttrBody fuel rest7 (i4 + 1) (acc ++ [(keyS, v)])
            | ']' :: rest7 => .ok (acc ++ [(keyS, v)], i4 + 1, rest7)
            | _ => .error ⟨"Unexpected input", i4 + 1⟩
        | ',' :: rest4 => parseAttrBody fuel rest4 (i3 + 1) (acc ++ [(keyS, .bool true)])
        | ']' :: rest4 => .ok (acc ++ [(keyS, .bool true)], i3 + 1, rest4)
        | _ => .error ⟨"Unexpected input", i3 + 1⟩

/-- Parse one body line (the text after the "- " list marker): role,
optional quoted or regex name, optional attribute list, optional
trailing colon introducing children or leaf text. Returns the role and
the typed attributes, or the first error (fail-fast). -/
def parseBody (line : String) : Except ParseErr (String × List (String × AttrVal)) :=
  let cs := line.data
  let role := cs.takeWhile Char.isAlpha
  let rest := cs.dropWhile Char.isAlpha
  if role.isEmpty then .error ⟨"Unexpected input", 1⟩
  else
    let i := role.length
    let sp := rest.takeWhile isSpaceChar
    let rest2 := rest.dropWhile isSpaceChar
    let i2 := i + sp.length
    let nameStep : Except ParseErr (Nat × List Char) :=
      match rest2 with
      | '"' :: r => parseQuoted r (i2 + 1)
      | '/' :: r => parseRegexLit false r (i2 + 1)
      | _ => .ok (i2, rest2)
    match nameStep with
    | .error e => .error e
    | .ok (i3, rest3) =>
      let sp2 := rest3.takeWhile isSpaceChar
      let rest4 := rest3.dropWhile isSpaceChar
      let i4 := i3 + sp2.length
      match rest4 with
      | '[' :: r =>
        match parseAttrBody (r.length + 1) r (i4 + 1) [] with
        | .error e => .error e
        | .ok (attrs, i5, rest5) =>
          let sp3 := rest5.takeWhile isSpaceChar
          let rest6 := rest5.dropWhile isSpaceChar
          let i6 := i5 + sp3.length
          match rest6 with
          | [] => .ok (String.mk role, attrs)
          | ':' :: _ => .ok (String.mk role, attrs)
          | _ => .error ⟨"Unexpected input", i6 + 1⟩
      | [] => .ok (String.mk role, [])
      | ':' :: _ => .ok (String.mk role, [])
      | _ => .error ⟨"Unexpected input", i4 + 1⟩

/-- Whitespace characters recognized by trimming (the usual blank,
tab, newline, carriage-return, vertical-tab and form-feed set). -/
def isJsWs (c : Char) : Bool :=
  c == ' ' || c == '\t' || c == '\n' || c == '\r' || c == '\x0b' || c == '\x0c'

/-- Trim whitespace from both ends of a string. -/
def jsTrim (s : String) : String :=
  String.mk (((s.data.dropWhile isJsWs).reverse.dropWhile isJsWs).reverse)

/-- Split a string at newline characters. -/
def splitLinesAux : List Char → List Char → List String
  | [], acc => [String.mk acc.reverse]
  | '\n' :: rest, acc => String.mk acc.reverse :: splitLinesAux rest []
  | c :: rest, acc => splitLinesAux rest (c :: acc)

def splitLines (s : String) : List String := splitLinesAux s.data []

/-- Strip the "- " list marker and its indentation from a line. -/
def stripItem (l : String) : Option String :=
  match l.data.dropWhile isSpaceChar with
  | '-' :: ' ' :: rest => some (String.mk rest)
  | _ => none

/-- Parse the lines of a document, failing fast on the first error,
reporting its 1-based line and column. -/
def parseChunk : Nat → List String → Except DocErr Unit
  | _, [] => .ok ()
  | n, l :: rest =>
    if jsTrim l = "" then parseChunk (n + 1) rest
    else
      match stripItem l with
      | none => .error ⟨"Unexpected input", n, 1⟩
      | some body =>
        match parseBody body with
        | .error e => .error ⟨e.message, n, e.col⟩
        | .ok _ => parseChunk (n + 1) rest

/-- Parse a whole expectation text. -/
def parseDoc (text : String) : Except DocErr Unit :=
  parseChunk 1 (splitLines text)

/-- The caret line: spaces up to the reported 1-based column, then "^". -/
def caretLine (col : Nat) : String :=
  String.mk (List.replicate (col - 1) ' ') ++ "^"

/-- Format a structured error: message, blank line, offending source
line, caret under the reported column (§6). -/
def formatParseErr (e : ParseErr) (sourceLine : String) : String :=
  e.message ++ ":\n\n" ++ sourceLine ++ "\n" ++ caretLine e.col

theorem isIntLit_iff (cs : List Char) :
    isIntLit cs = true ↔
      ∃ ds : List Char, ds ≠ [] ∧ ds.all Char.isDigit = true ∧
        (cs = ds ∨ cs = '-' :: ds) := by
  cases cs with
  | nil =>
    constructor
    · intro h
      simp [isIntLit] at h
    · rintro ⟨ds, hne, _, h | h⟩
      · exact absurd h.symm hne
      · simp at h
  | cons c rest =>
    by_cases hc : c = '-'
    · subst hc
      simp only [isIntLit, Bool.and_eq_true]
      constructor
      · rintro ⟨hne, hall⟩
        refine ⟨rest, ?_, hall, Or.inr rfl⟩
        cases rest with
        | nil => simp at hne
        | cons _ _ => simp
      · rintro ⟨ds, hne, hall, h | h⟩
        · subst h
          have hd : Char.isDigit '-' = false := by decide
          rw [List.all_cons, hd] at hall
          simp at hall
        · have hrd : rest = ds := by injection h
          subst hrd
          refine ⟨?_, hall⟩
          cases rest with
          | nil => exact absurd rfl hne
          | cons _ _ => simp
    · have hmk : isIntLit (c :: rest) =
          (!(c :: rest).isEmpty && (c :: rest).all Char.isDigit) := by
        rw [isIntLit.eq_def]
        split
        · rename_i heq
          injection heq with h1 _
          exact absurd h1 hc
        · rfl
      rw [hmk]
      simp only [List.isEmpty_cons, Bool.not_false, Bool.true_and]
      constructor
      · intro hall
        exact ⟨c :: rest, by simp, hall, Or.inl rfl⟩
      · rintro ⟨ds, _, hall, h | h⟩
        · rw [h]; exact hall
        · have : c = '-' := by injection h
          exact absurd this hc

/-- C6: attribute value validation at parse time: checked and pressed
accept exactly true, false or the literal mixed; disabled, expanded and
selected accept exactly the case-sensitive booleans true/false; level
accepts digit sequences with an optional leading minus and rejects an
empty value; any other literal fails with the typed message; and the
expectation body "heading [level=a]" fails the parse with the message
naming the level attribute, the caret column pointing at the character
a. -/
theorem c6_attribute_validation :
    (∀ s : String, (validateAttr "checked" s).isOk = true ↔
        (s = "true" ∨ s = "false" ∨ s = "mixed"))
    ∧ (∀ s : String, (validateAttr "pressed" s).isOk = true ↔
        (s = "true" ∨ s = "false" ∨ s = "mixed"))
    ∧ (∀ k s : String, (k = "disabled" ∨ k = "expanded" ∨ k = "selected") →
        ((validateAttr k s).isOk = true ↔ (s = "true" ∨ s = "false")))
    ∧ (∀ s : String, (validateAttr "level" s).isOk = true ↔
        ∃ ds : List Char, ds ≠ [] ∧ ds.all Char.isDigit = true ∧
          (s.data = ds ∨ s.data = '-' :: ds))
    ∧ (∀ s : String, (validateAttr "checked" s).isOk = false →
        validateAttr "checked" s = .error "must be a boolean or \"mixed\"")
    ∧ (∀ s : String, (validateAttr "disabled" s).isOk = false →
        validateAttr "disabled" s = .error "must be a boolean")
    ∧ (∀ s : String, (validateAttr "level" s).isOk = false →
        validateAttr "level" s = .error "must be a number")
    ∧ parseBody "heading [level=a]" =
        .error ⟨"Value of \"level\" attribute must be a number", 16⟩
    ∧ "heading [level=a]".data.getD 15 ' ' = 'a' := by
  refine ⟨?_, ?_, ?_, ?_, ?_, ?_, ?_, by rfl, by rfl⟩
  · intro s
    simp only [validateAttr]
    split_ifs <;> simp_all [Except.isOk, Except.toBool]
  · intro s
    simp only [validateAttr]
    split_ifs <;> simp_all [Except.isOk, Except.toBool]
  · intro k s hk
    have hk2 : ¬(k = "checked" ∨ k = "pressed") := by
      rcases hk with rfl | rfl | rfl <;> simp
    simp only [validateAttr]
    split_ifs <;> simp_all [Except.isOk, Except.toBool]
  · intro s
    simp only [validateAttr]
    split_ifs with h1 h2 h3 h4 <;>
      simp_all [Except.isOk, Except.toBool, isIntLit_iff]
  · intro s
    simp only [validateAttr]
    split_ifs <;> simp_all [Except.isOk, Except.toBool]
  · intro s
    simp only [validateAttr]
    split_ifs <;> simp_all [Except.isOk, Except.toBool]
  · intro s
    simp only [validateAttr]
    split_ifs <;> simp_all [Except.isOk, Except.toBool]

/-- Witness for C6: the literal FALSE is not accepted for the boolean
attribute disabled. -/
theorem c6_witness :
    (validateAttr "disabled" "FALSE").isOk = true ↔
      ("FALSE" = "true" ∨ "FALSE" = "false") :=
  c6_attribute_validation.2.2.1 "disabled" "FALSE" (Or.inl rfl)

/-- C7: parse errors are fail-fast and positioned: an unterminated
double-quoted string fails with the unterminated-string message pointing
at end-of-line, an unterminated regex literal fails with the
unterminated-regex message, an unknown attribute key fails pointing at
the key token; the error is surfaced with a 1-based line and column, and
is formatted as the message, a blank line, the offending source line and
a caret under the reported column. -/
theorem c7_parse_errors_positioned :
    parseBody "heading \"title" = .error ⟨"Unterminated string", 15⟩
    ∧ parseBody "heading /title" = .error ⟨"Unterminated regex", 15⟩
    ∧ parseBody "heading [bogus]" = .error ⟨"Unsupported attribute [bogus]", 10⟩
    ∧ parseDoc "- heading \"title" = .error ⟨"Unterminated string", 1, 15⟩
    ∧ parseDoc "- button\n- heading /title\n- heading \"also broken" =
        .error ⟨"Unterminated regex", 2, 15⟩
    ∧ formatParseErr ⟨"Unterminated string", 15⟩ "heading \"title" =
        "Unterminated string:\n\nheading \"title\n              ^"
    ∧ formatParseErr ⟨"Unsupported attribute [bogus]", 10⟩ "heading [bogus]" =
        "Unsupported attribute [bogus]:\n\nheading [bogus]\n         ^" :=
  ⟨rfl, rfl, rfl, rfl, rfl, rfl, rfl⟩

/-! ## Regexifier.

Modelled from the spec: §4.4 "Regexifier". The implementation is not
part of the repository sources (only its tests are), so the heuristic
follows the spec's words: scan every leaf value for substrings
recognized as dynamic — integer/decimal runs optionally with thousands
separators, currency-prefixed numbers (the currency sign being escaped
as ordinary literal text), percentage suffixes — replace each such run
with an escaped regex fragment matching the same shape, and wrap the
whole value in regex-literal syntax only if at least one substitution
occurred, otherwise keep the literal string form. Runs are recognized
only at word boundaries, and a bare single digit with no separators or
suffix is not treated as dynamic (as the repository's tests pin down:
a lone 0 stays literal while 34 becomes a digit-run fragment). -/

/-- A rendered leaf value: either the unchanged literal, or a best-guess
regex pattern. -/
inductive RegexifiedValue where
  | lit (s : String)
  | re (pattern : String)
deriving DecidableEq, Repr

def regexMetaChars : List Char :=
  ['\\', '^', '$', '.', '|', '?', '*', '+', '(', ')', '[', ']', '\x7b', '\x7d']

/-- Escape one literal character for use inside a regex pattern. -/
def regexEscapeChar (c : Char) : List Char :=
  if regexMetaChars.contains c then ['\\', c] else [c]

def takeDigits (cs : List Char) : List Char × List Char :=
  (cs.takeWhile Char.isDigit, cs.dropWhile Char.isDigit)

/-- Consume as many ",digits" thousands-separator groups as possible;
returns the number of groups and the remaining characters. -/
def commaGroups (fuel : Nat) (cs : List Char) : Nat × List Char :=
  match fuel with
  | 0 => (0, cs)
  | fuel + 1 =>
    match cs with
    | ',' :: rest =>
      let ds := (takeDigits rest).1
      if ds.isEmpty then (0, cs)
      else
        let r := commaGroups fuel (takeDigits rest).2
        (r.1 + 1, r.2)
    | _ => (0, cs)

/-- Try to recognize a dynamic run starting at the current position
(which the caller guarantees is a left word boundary): digits,
optional ",digits" groups, an optional ".digits" decimal part, an
optional "%" suffix, followed by a right word boundary. Returns the
replacement fragment, whether the last consumed character is a word
character, and the remaining characters; none if the text at this
position is not recognized as dynamic. -/
def tryRun (cs : List Char) : Option (List Char × Bool × List Char) :=
  let d1 := (takeDigits cs).1
  let r1 := (takeDigits cs).2
  if d1.isEmpty then none
  else
    let ncommas := (commaGroups r1.length r1).1
    let r2 := (commaGroups r1.length r1).2
    let dotStep :=
      match r2 with
      | '.' :: rest =>
        let ds := (takeDigits rest).1
        if ds.isEmpty then (false, r2) else (true, (takeDigits rest).2)
      | _ => (false, r2)
    let hasDot := dotStep.1
    let r3 := dotStep.2
    let pctStep :=
      match r3 with
      | '%' :: rest => (true, rest)
      | _ => (false, r3)
    let hasPct := pctStep.1
    let r4 := pctStep.2
    let boundaryOk :=
      match r4 with
      | [] => true
      | c :: _ => !isWordChar c
    let dynamic := decide (0 < ncommas) || hasDot || hasPct || decide (2 ≤ d1.length)
    if boundaryOk && dynamic then
      some ("\\d+".data ++ (List.replicate ncommas (",\\d+".data)).flatten ++
              (if hasDot then "\\.\\d+".data else []) ++
              (if hasPct then ['%'] else []),
            !hasPct, r4)
    else none

/-- The scanning pass: escape ordinary characters, replace recognized
dynamic runs, and report whether any substitution occurred. -/
def regexifyGo (fuel : Nat) (prevWord : Bool) (cs : List Char) : List Char × Bool :=
  match fuel, cs with
  | 0, _ => ([], false)
  | _ + 1, [] => ([], false)
  | fuel + 1, c :: rest =>
    if c.isDigit && !prevWord then
      match tryRun (c :: rest) with
      | some (frag, endW, rest') => (frag ++ (regexifyGo fuel endW rest').1, true)
      | none =>
        (regexEscapeChar c ++ (regexifyGo fuel true rest).1,
         (regexifyGo fuel true rest).2)
    else
      (regexEscapeChar c ++ (regexifyGo fuel (isWordChar c) rest).1,
       (regexifyGo fuel (isWordChar c) rest).2)

/-- Regexify one leaf value: wrap in a regex pattern only if at least
one substitution occurred; otherwise keep the literal unchanged. -/
def convertToBestGuessRegex (s : String) : RegexifiedValue :=
  let r := regexifyGo (s.data.length + 1) false s.data
  if r.2 then .re (String.mk r.1) else .lit s

theorem regexifyGo_no_digit (fuel : Nat) (prevW : Bool) (cs : List Char)
    (h : ∀ c ∈ cs, c.isDigit = false) : (regexifyGo fuel prevW cs).2 = false := by
  induction fuel generalizing prevW cs with
  | zero => simp [regexifyGo]
  | succ fuel ih =>
    cases cs with
    | nil => simp [regexifyGo]
    | cons c rest =>
      have hc : c.isDigit = false := h c (List.mem_cons_self _ _)
      simp only [regexifyGo, hc, Bool.false_and, if_false]
      exact ih _ rest fun d hd => h d (List.mem_cons_of_mem _ hd)

/-- C2: regexifying replaces recognized dynamic substrings with escaped
regex fragments of the same shape and wraps the value in regex-literal
syntax only when at least one substitution occurred; whenever the output
is a literal it equals the input unchanged, and on a value with no
digits at all the output literal is the input literal; concretely,
"Total: 1,234 items" renders to the pattern with digit runs and
"Add to cart" renders to itself unchanged. -/
theorem c2_regexify_shape_and_idempotence :
    (∀ s : String, (∀ c ∈ s.data, c.isDigit = false) →
        convertToBestGuessRegex s = .lit s)
    ∧ (∀ s t : String, convertToBestGuessRegex s = .lit t → t = s)
    ∧ convertToBestGuessRegex "Total: 1,234 items" = .re "Total: \\d+,\\d+ items"
    ∧ convertToBestGuessRegex "Add to cart" = .lit "Add to cart"
    ∧ convertToBestGuessRegex "Revenue: $567,890.12" = .re "Revenue: \\$\\d+,\\d+\\.\\d+"
    ∧ convertToBestGuessRegex "Sales Report 2024" = .re "Sales Report \\d+" := by
  refine ⟨?_, ?_, by rfl, by rfl, by rfl, by rfl⟩
  · intro s h
    simp [convertToBestGuessRegex, regexifyGo_no_digit _ _ _ h]
  · intro s t h
    simp only [convertToBestGuessRegex] at h
    split at h
    · cases h
    · injection h with h1
      exact h1.symm

/-- Witness for C2: a digit-free value regexifies to itself. -/
theorem c2_witness :
    convertToBestGuessRegex "Add to cart now" = .lit "Add to cart now" :=
  c2_regexify_shape_and_idempotence.1 "Add to cart now" (by decide)

/-! ## The matcher wrapper, translated from
src/packages/playwright/src/matchers/toMatchAriaSnapshot.ts. -/

/-- First line whose trimmed form is nonempty. -/
def firstNonBlank : List String → Option String
  | [] => none
  | l :: rest => if jsTrim l = "" then firstNonBlank rest else some l

/-- The unshift helper of toMatchAriaSnapshot.ts: compute the
whitespace width of the first nonempty line (its length minus the
length of its trimmed form), drop blank lines, and remove that many
leading characters from every remaining line. -/
def unshift (snapshot : String) : String :=
  let lines := splitLines snapshot
  let wsLen :=
    match firstNonBlank lines with
    | some l => l.data.length - (jsTrim l).data.length
    | none => 0
  String.intercalate "\n"
    ((lines.filter fun t => jsTrim t != "").map fun line => String.mk (line.data.drop wsLen))

/-- The needsYamlQuoting helper: a value needs quoting when it contains
a colon followed by a blank, or a percent sign. -/
def needsYamlQuoting (str : String) : Bool :=
  decide (List.IsInfix ": ".data str.data) || str.data.contains '%'

/-- Replace every occurrence of one character by a replacement string
(the character-level form of a global single-character replace). -/
def replaceChar (c : Char) (rep : List Char) (cs : List Char) : List Char :=
  (cs.map fun d => if d == c then rep else [d]).flatten

/-- The escapeYamlString helper: the source applies five global
replaces in sequence — backslash, double quote, newline,
carriage-return, tab — each introducing a leading backslash; none of
the introduced characters is hit by a later replace in the chain, so
the sequential chain is reproduced here replace by replace. -/
def escapeYamlString (str : String) : String :=
  let s1 := replaceChar '\\' ['\\', '\\'] str.data
  let s2 := replaceChar '"' ['\\', '"'] s1
  let s3 := replaceChar '\n' ['\\', 'n'] s2
  let s4 := replaceChar '\r' ['\\', 'r'] s3
  let s5 := replaceChar '\t' ['\\', 't'] s4
  String.mk s5

/-- The list-item pattern of preprocessYaml: leading whitespace, a
dash, at least one whitespace character, then a nonempty content group
reaching the end of the line. When everything after the dash is
whitespace, the greedy whitespace run hands its last character back to
the content group (which must match at least one character). Returns
the captured indentation and content. -/
def listItemMatch (l : String) : Option (String × String) :=
  let cs := l.data
  let ind := cs.takeWhile isJsWs
  match cs.dropWhile isJsWs with
  | '-' :: rest2 =>
    let sp := rest2.takeWhile isJsWs
    match rest2.dropWhile isJsWs with
    | [] =>
      match sp.reverse with
      | c :: _ :: _ => some (String.mk ind, String.mk [c])
      | _ => none
    | rest3 =>
      if sp.isEmpty then none
      else some (String.mk ind, String.mk rest3)
  | _ => none

/-- The key-value pattern of preprocessYaml: a nonempty word-character
key, a colon, optional whitespace, then a nonempty value reaching the
end; when only whitespace follows the colon, the greedy whitespace run
hands its last character back to the value group. -/
def keyValueMatch (content : String) : Option (String × String) :=
  let cs := content.data
  let key := cs.takeWhile isWordChar
  if key.isEmpty then none
  else
    match cs.dropWhile isWordChar with
    | ':' :: rest2 =>
      let sp := rest2.takeWhile isJsWs
      match rest2.dropWhile isJsWs with
      | [] =>
        match sp.reverse with
        | c :: _ => some (String.mk key, String.mk [c])
        | [] => none
      | rest3 => some (String.mk key, String.mk rest3)
    | _ => none

/-- The already-quoted-regex test of preprocessYaml: the value starts
with a double quote and a slash and ends with a slash and a double
quote, with anything in between. -/
def isQuotedRegexVal (v : String) : Bool :=
  match v.data with
  | '"' :: '/' :: rest =>
    match rest.reverse with
    | '"' :: '/' :: _ => true
    | _ => false
  | _ => false

/-- One line of preprocessYaml: blank and comment lines and
non-list-item lines pass through; a list item whose content ends with a
colon or starts with a slash passes through; a key-value item keeps an
already-quoted regex value, quotes a value that needs quoting, and
passes through otherwise; a plain item value is quoted the same way. -/
def processLine (line : String) : String :=
  if jsTrim line = "" then line
  else if (jsTrim line).data.head? = some '#' then line
  else
    match listItemMatch line with
    | none => line
    | some (ind, content) =>
      if content.data.getLast? = some ':' then line
      else if content.data.head? = some '/' then line
      else
        match keyValueMatch content with
        | some kv =>
          if isQuotedRegexVal kv.2 then line
          else if needsYamlQuoting kv.2 then
            ind ++ "- " ++ kv.1 ++ ": \"" ++ escapeYamlString kv.2 ++ "\""
          else line
        | none =>
          if needsYamlQuoting content then ind ++ "- \"" ++ escapeYamlString content ++ "\""
          else line

/-- The preprocessYaml helper of toMatchAriaSnapshot.ts: process every
line independently and rejoin. -/
def preprocessYaml (yaml : String) : String :=
  String.intercalate "\n" ((splitLines yaml).map processLine)

/-- The updateSnapshots configuration values consulted by the matcher. -/
inductive UpdateSnapshots where
  | all
  | changed
  | missing
  | noUpdates
deriving DecidableEq, Repr

/-- The raw and regex renderings of the captured snapshot, as delivered
by the external capture facility. -/
structure MatcherReceived where
  raw : String
  regex : String
deriving DecidableEq, Repr

/-- The received side of an expect call: either the no-elements-found
sentinel, or a captured snapshot. -/
inductive Received where
  | notFound
  | found (r : MatcherReceived)
deriving DecidableEq, Repr

/-- The outcome of the external to.match.aria expect call. -/
structure ExpectOutcome where
  matchesFlag : Bool
  received : Received
deriving DecidableEq, Repr

/-- The shape of the message the matcher builds: the can't-generate
notice of a negated missing-baseline call, the element-not-found
message, the pass (negated-assertion) message carrying the received
text, the failure diff carrying the received text, or the empty message
of the baseline-writing branches. -/
inductive MessageModel where
  | cantGenerateMsg
  | notFoundMsg (expected : String)
  | passMsg (expected receivedText : String)
  | failMsg (expected receivedText : String)
  | emptyMsg
deriving DecidableEq, Repr

/-- The observable result of one matcher invocation: the pass flag, the
message, whether the snapshot file is written, and the suggested
rebaseline payload if one is produced. -/
structure ResultModel where
  pass : Bool
  message : MessageModel
  writesFile : Bool
  suggestedRebaseline : Option String
deriving DecidableEq, Repr

/-- The decision logic of toMatchAriaSnapshot (lines 80-192 of the
source), translated with its effects made explicit: inputs are the
updateSnapshots configuration, the isNot flag, the stored or inline
expectation text, whether a snapshot file path is available, and the
outcome of the external expect call; the result records pass, message,
and the baseline-writing effects. The message-building externals
(matcherHint, printExpected, diff printing, call log) are represented
by the message constructors, which record which received-side text is
embedded. -/
def toMatchAriaSnapshotModel (upd : UpdateSnapshots) (isNot : Bool)
    (expected0 : String) (hasExpectedPath : Bool)
    (outcome : ExpectOutcome) : ResultModel :=
  let generateMissingBaseline := upd == UpdateSnapshots.missing && expected0 == ""
  if generateMissingBaseline && isNot then
    { pass := isNot, message := .cantGenerateMsg, writesFile := false,
      suggestedRebaseline := none }
  else
    let expected1 :=
      if generateMissingBaseline then "- none \"Generating new baseline\"" else expected0
    let expected := preprocessYaml (unshift expected1)
    let pass := outcome.matchesFlag
    match outcome.received with
    | .notFound =>
      { pass := isNot, message := .notFoundMsg expected, writesFile := false,
        suggestedRebaseline := none }
    | .found r =>
      let receivedText := if pass then r.raw else r.regex
      if !isNot && (upd == UpdateSnapshots.all ||
          (upd == UpdateSnapshots.changed && pass == isNot) || generateMissingBaseline) then
        if hasExpectedPath then
          { pass := true, message := .emptyMsg, writesFile := true,
            suggestedRebaseline := none }
        else
          { pass := false, message := .emptyMsg, writesFile := false,
            suggestedRebaseline := some r.regex }
      else
        { pass := pass,
          message :=
            if pass then .passMsg expected receivedText else .failMsg expected receivedText,
          writesFile := false, suggestedRebaseline := none }

/-- Render a message shape to its user-visible text (colors, matcher
hint and call log are external presentation and omitted). -/
def renderMessage : MessageModel → String
  | .cantGenerateMsg => "Matchers using \".not\" can't generate new baselines"
  | .notFoundMsg e => "Expected: " ++ e ++ "\nReceived: <element not found>"
  | .passMsg e r => "Expected: not " ++ e ++ "\nReceived: " ++ r
  | .failMsg e r => "Expected: " ++ e ++ "\nReceived: " ++ r
  | .emptyMsg => ""

/-- Which received-side text a message embeds, if any. -/
def receivedTextUsed : MessageModel → Option String
  | .passMsg _ rt => some rt
  | .failMsg _ rt => some rt
  | _ => none

theorem listItemMatch_head {l ind content : String}
    (h : listItemMatch l = some (ind, content)) :
    (jsTrim l).data.head? = some '-' := by
  have hshape : ∃ rest : List Char, l.data.dropWhile isJsWs = '-' :: rest := by
    simp only [listItemMatch] at h
    split at h
    · rename_i rest2 heq
      exact ⟨rest2, heq⟩
    · exact absurd h (by simp)
  obtain ⟨rest, hrest⟩ := hshape
  show ((((l.data.dropWhile isJsWs).reverse.dropWhile isJsWs).reverse : List Char)).head? = some '-'
  rw [hrest, List.head?_reverse]
  have hsuffix := List.takeWhile_append_dropWhile (l := ('-' :: rest).reverse) (p := isJsWs)
  have hne : ('-' :: rest).reverse.dropWhile isJsWs ≠ [] := by
    intro hnil
    have hall := List.dropWhile_eq_nil_iff.mp hnil
    have : isJsWs '-' = true := hall '-' (by simp)
    exact absurd this (by decide)
  calc (('-' :: rest).reverse.dropWhile isJsWs).getLast?
      = (('-' :: rest).reverse.takeWhile isJsWs ++
          ('-' :: rest).reverse.dropWhile isJsWs).getLast? :=
        (List.getLast?_append_of_ne_nil _ hne).symm
    _ = (('-' :: rest).reverse).getLast? := by rw [hsuffix]
    _ = ('-' :: rest).head? := by rw [List.getLast?_reverse]
    _ = some '-' := rfl

theorem listItemMatch_not_blank {l ind content : String}
    (h : listItemMatch l = some (ind, content)) :
    jsTrim l ≠ "" ∧ (jsTrim l).data.head? ≠ some '#' := by
  have hh := listItemMatch_head h
  constructor
  · intro heq
    rw [heq] at hh
    exact Option.noConfusion hh
  · intro heq
    rw [heq] at hh
    injection hh with h1
    exact absurd h1 (by decide)

/-- C9: the expectation text is preprocessed line by line before the
YAML parse: a list-item line whose key-value (or plain) value contains
a colon-blank pair or a percent sign is rewritten with the value
double-quoted and escaped; lines whose content ends with a colon, lines
whose content starts with a slash, blank lines, comment lines, values
already written as a quoted regex, values needing no quoting, and
non-list-item lines all pass through unchanged; concretely the
unquoted line for paragraph with value Items: 42 is rewritten with the
value quoted. -/
theorem c9_preprocess_yaml_quoting :
    processLine "- paragraph: Items: 42" = "- paragraph: \"Items: 42\""
    ∧ preprocessYaml "- list:\n  - paragraph: Items: 42" =
        "- list:\n  - paragraph: \"Items: 42\""
    ∧ (∀ l : String, jsTrim l = "" → processLine l = l)
    ∧ (∀ l : String, (jsTrim l).data.head? = some '#' → processLine l = l)
    ∧ (∀ l : String, listItemMatch l = none → processLine l = l)
    ∧ (∀ l ind content, listItemMatch l = some (ind, content) →
        content.data.getLast? = some ':' → processLine l = l)
    ∧ (∀ l ind content, listItemMatch l = some (ind, content) →
        content.data.head? = some '/' → processLine l = l)
    ∧ (∀ l ind content k v, listItemMatch l = some (ind, content) →
        keyValueMatch content = some (k, v) → isQuotedRegexVal v = true →
        processLine l = l)
    ∧ (∀ l ind content k v, listItemMatch l = some (ind, content) →
        keyValueMatch content = some (k, v) → needsYamlQuoting v = false →
        processLine l = l)
    ∧ (∀ l ind content, listItemMatch l = some (ind, content) →
        keyValueMatch content = none → needsYamlQuoting content = false →
        processLine l = l)
    ∧ (∀ l ind content k v, listItemMatch l = some (ind, content) →
        content.data.getLast? ≠ some ':' → content.data.head? ≠ some '/' →
        keyValueMatch content = some (k, v) → isQuotedRegexVal v = false →
        needsYamlQuoting v = true →
        processLine l = ind ++ "- " ++ k ++ ": \"" ++ escapeYamlString v ++ "\"")
    ∧ (∀ l ind content, listItemMatch l = some (ind, content) →
        content.data.getLast? ≠ some ':' → content.data.head? ≠ some '/' →
        keyValueMatch content = none → needsYamlQuoting content = true →
        processLine l = ind ++ "- \"" ++ escapeYamlString content ++ "\"") := by
  refine ⟨by rfl, by rfl, ?_, ?_, ?_, ?_, ?_, ?_, ?_, ?_, ?_, ?_⟩
  · intro l h
    simp [processLine, h]
  · intro l h
    simp only [processLine, h]
    split
    · rfl
    · simp
  · intro l h
    simp only [processLine, h]
    split
    · rfl
    · split
      · rfl
      · rfl
  · intro l ind content hli hlast
    obtain ⟨hne, hnh⟩ := listItemMatch_not_blank hli
    simp [processLine, if_neg hne, if_neg hnh, hli, hlast]
  · intro l ind content hli hhead
    obtain ⟨hne, hnh⟩ := listItemMatch_not_blank hli
    simp only [processLine, if_neg hne, if_neg hnh, hli]
    split
    · rfl
    · simp [hhead]
  · intro l ind content k v hli hkv hqr
    obtain ⟨hne, hnh⟩ := listItemMatch_not_blank hli
    simp only [processLine, if_neg hne, if_neg hnh, hli]
    split
    · rfl
    · split
      · rfl
      · simp [hkv, hqr]
  · intro l ind content k v hli hkv hq
    obtain ⟨hne, hnh⟩ := listItemMatch_not_blank hli
    simp only [processLine, if_neg hne, if_neg hnh, hli]
    split
    · rfl
    · split
      · rfl
      · simp [hkv, hq]
  · intro l ind content hli hkv hq
    obtain ⟨hne, hnh⟩ := listItemMatch_not_blank hli
    simp only [processLine, if_neg hne, if_neg hnh, hli]
    split
    · rfl
    · split
      · rfl
      · simp [hkv, hq]
  · intro l ind content k v hli hlast hhead hkv hqr hq
    obtain ⟨hne, hnh⟩ := listItemMatch_not_blank hli
    simp [processLine, if_neg hne, if_neg hnh, hli, if_neg hlast, if_neg hhead, hkv, hqr, hq]
  · intro l ind content hli hlast hhead hkv hq
    obtain ⟨hne, hnh⟩ := listItemMatch_not_blank hli
    simp [processLine, if_neg hne, if_neg hnh, hli, if_neg hlast, if_neg hhead, hkv, hq]

/-- Witness for C9: the line for paragraph with value Status: active is
rewritten with its value quoted. -/
theorem c9_witness :
    processLine "- paragraph: Status: active" = "- paragraph: \"Status: active\"" := by
  have h := c9_preprocess_yaml_quoting.2.2.2.2.2.2.2.2.2.2.1
    "- paragraph: Status: active" "" "paragraph: Status: active" "paragraph" "Status: active"
    (by rfl) (by decide) (by decide) (by rfl) (by rfl) (by rfl)
  simpa using h

/-- C1: whenever a snapshot was captured (element found), any
received-side text embedded in the result message is the raw rendered
tree exactly when the match passed and the regex (best-guess) rendered
form exactly when it failed; on a passing match the message is the
negated-assertion message carrying the raw form (or the empty message of
a baseline-writing branch), on a failing match it is the diff message
carrying the regex form (or the empty message); and the regex rendering
is never used for matching: the resulting pass flag does not depend on
it. -/
theorem c1_received_text_raw_iff_pass :
    (∀ (upd : UpdateSnapshots) (isNot : Bool) (e0 : String) (hp m : Bool)
        (r : MatcherReceived) (t : String),
        receivedTextUsed
            (toMatchAriaSnapshotModel upd isNot e0 hp ⟨m, .found r⟩).message = some t →
        t = if m = true then r.raw else r.regex)
    ∧ (∀ (upd : UpdateSnapshots) (isNot : Bool) (e0 : String) (hp : Bool)
        (r : MatcherReceived),
        ((upd == UpdateSnapshots.missing && e0 == "") && isNot) = false →
        ((toMatchAriaSnapshotModel upd isNot e0 hp ⟨true, .found r⟩).message = .emptyMsg ∨
          ∃ e, (toMatchAriaSnapshotModel upd isNot e0 hp ⟨true, .found r⟩).message =
            .passMsg e r.raw))
    ∧ (∀ (upd : UpdateSnapshots) (isNot : Bool) (e0 : String) (hp : Bool)
        (r : MatcherReceived),
        ((upd == UpdateSnapshots.missing && e0 == "") && isNot) = false →
        ((toMatchAriaSnapshotModel upd isNot e0 hp ⟨false, .found r⟩).message = .emptyMsg ∨
          ∃ e, (toMatchAriaSnapshotModel upd isNot e0 hp ⟨false, .found r⟩).message =
            .failMsg e r.regex))
    ∧ (∀ (upd : UpdateSnapshots) (isNot : Bool) (e0 : String) (hp m : Bool)
        (raw rgx rgx' : String),
        (toMatchAriaSnapshotModel upd isNot e0 hp ⟨m, .found ⟨raw, rgx⟩⟩).pass =
        (toMatchAriaSnapshotModel upd isNot e0 hp ⟨m, .found ⟨raw, rgx'⟩⟩).pass) := by
  refine ⟨?_, ?_, ?_, ?_⟩
  · intro upd isNot e0 hp m r t h
    simp only [toMatchAriaSnapshotModel] at h
    split at h
    · simp [receivedTextUsed] at h
    · split at h
      · split at h
        · simp [receivedTextUsed] at h
        · simp [receivedTextUsed] at h
      · cases m with
        | true => simp [receivedTextUsed] at h; exact h.symm
        | false => simp [receivedTextUsed] at h; exact h.symm
  · intro upd isNot e0 hp r hguard
    simp only [toMatchAriaSnapshotModel, hguard, Bool.false_eq_true, if_false]
    split
    · split
      · left; rfl
      · left; rfl
    · right; exact ⟨_, rfl⟩
  · intro upd isNot e0 hp r hguard
    simp only [toMatchAriaSnapshotModel, hguard, Bool.false_eq_true, if_false]
    split
    · split
      · left; rfl
      · left; rfl
    · right; exact ⟨_, rfl⟩
  · intro upd isNot e0 hp m raw rgx rgx'
    simp only [toMatchAriaSnapshotModel]
    split
    · rfl
    · split
      · split <;> rfl
      · rfl

/-- Witness for C1: on a concrete failing attempt the embedded received
text is the regex rendering. -/
theorem c1_witness :
    "REGEX" = if (false : Bool) = true then "RAW" else "REGEX" :=
  c1_received_text_raw_iff_pass.1 .noUpdates false "- heading" true false
    ⟨"RAW", "REGEX"⟩ "REGEX" (by rfl)

theorem notFound_render_contains (e : String) :
    List.IsInfix "<element not found>".data
      (renderMessage (.notFoundMsg e)).data := by
  refine ⟨("Expected: " ++ e ++ "\nReceived: ").data, [], ?_⟩
  simp [renderMessage, List.append_assoc]

/-- C8: when the capture facility reports the no-elements-found
sentinel (on an attempt that is not the negated missing-baseline early
return, where no capture happens), matching is short-circuited: the
matcher returns pass equal to the isNot flag, the message is the
distinct element-not-found message whose rendering contains the fixed
placeholder, no received-side text (hence no diff) is embedded, and no
baseline is written. -/
theorem c8_not_found_sentinel :
    ∀ (upd : UpdateSnapshots) (isNot : Bool) (e0 : String) (hp m : Bool),
      ¬(upd = .missing ∧ e0 = "" ∧ isNot = true) →
      (toMatchAriaSnapshotModel upd isNot e0 hp ⟨m, .notFound⟩).pass = isNot ∧
      (∃ e, (toMatchAriaSnapshotModel upd isNot e0 hp ⟨m, .notFound⟩).message =
          .notFoundMsg e) ∧
      receivedTextUsed (toMatchAriaSnapshotModel upd isNot e0 hp ⟨m, .notFound⟩).message
          = none ∧
      List.IsInfix "<element not found>".data
        (renderMessage
          (toMatchAriaSnapshotModel upd isNot e0 hp ⟨m, .notFound⟩).message).data ∧
      (toMatchAriaSnapshotModel upd isNot e0 hp ⟨m, .notFound⟩).writesFile = false ∧
      (toMatchAriaSnapshotModel upd isNot e0 hp ⟨m, .notFound⟩).suggestedRebaseline
          = none := by
  intro upd isNot e0 hp m h
  have hcond : ((upd == UpdateSnapshots.missing && e0 == "") && isNot) = false := by
    by_contra hne
    rw [Bool.not_eq_false] at hne
    simp only [Bool.and_eq_true, beq_iff_eq] at hne
    exact h ⟨hne.1.1, hne.1.2, hne.2⟩
  simp only [toMatchAriaSnapshotModel, hcond, Bool.false_eq_true, if_false]
  exact ⟨by trivial, ⟨_, rfl⟩, by trivial, notFound_render_contains _, by trivial, by trivial⟩

/-- Witness for C8: a concrete not-found outcome on a plain attempt
yields pass false for a non-negated matcher with the not-found message. -/
theorem c8_witness :
    (toMatchAriaSnapshotModel .noUpdates false "- heading" true
        ⟨true, .notFound⟩).pass = false ∧
    (∃ e, (toMatchAriaSnapshotModel .noUpdates false "- heading" true
        ⟨true, .notFound⟩).message = .notFoundMsg e) := by
  have h := c8_not_found_sentinel .noUpdates false "- heading" true true (by simp)
  exact ⟨h.1, h.2.1⟩

/-- C10: the branch that writes the snapshot file or produces a
suggested rebaseline executes only when isNot is false; and when
updateSnapshots is missing with an empty stored expectation, a negated
matcher returns immediately — independently of any match outcome — with
pass true, the message stating that matchers using ".not" can't
generate new baselines, no file write and no rebaseline. -/
theorem c10_not_never_writes_baselines :
    (∀ (upd : UpdateSnapshots) (isNot : Bool) (e0 : String) (hp : Bool)
        (o : ExpectOutcome),
        ((toMatchAriaSnapshotModel upd isNot e0 hp o).writesFile = true ∨
          (toMatchAriaSnapshotModel upd isNot e0 hp o).suggestedRebaseline ≠ none) →
        isNot = false)
    ∧ (∀ (hp : Bool) (o : ExpectOutcome),
        toMatchAriaSnapshotModel .missing true "" hp o =
          { pass := true, message := .cantGenerateMsg, writesFile := false,
            suggestedRebaseline := none })
    ∧ renderMessage .cantGenerateMsg =
        "Matchers using \".not\" can't generate new baselines" := by
  refine ⟨?_, ?_, rfl⟩
  · intro upd isNot e0 hp o h
    cases isNot with
    | false => rfl
    | true =>
      exfalso
      simp only [toMatchAriaSnapshotModel] at h
      split at h
      · simp at h
      · cases ho : o.received with
        | notFound => rw [ho] at h; simp at h
        | found r => rw [ho] at h; simp at h
  · intro hp o
    rfl

/-- Witness for C10: a concrete update-all run on a non-negated matcher
with a snapshot path does write the file, and the theorem's first part
applies to it. -/
theorem c10_witness :
    (toMatchAriaSnapshotModel .all false "- x" true
        ⟨true, .found ⟨"r", "g"⟩⟩).writesFile = true ∧ false = false :=
  ⟨rfl, c10_not_never_writes_baselines.1 .all false "- x" true
    ⟨true, .found ⟨"r", "g"⟩⟩ (Or.inl rfl)⟩

end AriaSnapshot
